import Mathlib

set_option linter.unusedVariables false

/-!
Shallow embedding of Sources/FuturesPrivate/include/CAtomic.h.

The header defines three memory-ordering enums (values taken from the C11
memory_order enumeration: relaxed = 0, consume = 1, acquire = 2,
release = 3, acq_rel = 4, seq_cst = 5), the derived mapping
AtomicMemoryOrderStrongestLoadOrder, and a family of per-type atomic
operations generated by the _CATOMIC_VAR / _CATOMIC_INTEGER macros.
Single-threaded semantics of the C11 atomic intrinsics are modelled by
explicit state passing: a cell is its current value, and each operation
returns the result together with the new cell value.
-/

namespace CAtomic

/-- enum AtomicMemoryOrder (CAtomic.h lines 39-81): the six general
memory orderings. -/
inductive AtomicMemoryOrder where
  | relaxed
  | consume
  | acquire
  | release
  | acqrel
  | seqcst
deriving DecidableEq, Repr, Fintype

/-- The numeric value of each AtomicMemoryOrder case, as fixed by the C11
memory_order enumeration the header assigns them from. -/
def AtomicMemoryOrder.toNat : AtomicMemoryOrder → Nat
  | .relaxed => 0
  | .consume => 1
  | .acquire => 2
  | .release => 3
  | .acqrel => 4
  | .seqcst => 5

/-- enum AtomicLoadMemoryOrder (CAtomic.h lines 83-109): the orderings
valid for a pure load. -/
inductive AtomicLoadMemoryOrder where
  | relaxed
  | consume
  | acquire
  | seqcst
deriving DecidableEq, Repr, Fintype

/-- The numeric value of each AtomicLoadMemoryOrder case (same C11
memory_order values: relaxed = 0, consume = 1, acquire = 2, seq_cst = 5). -/
def AtomicLoadMemoryOrder.toNat : AtomicLoadMemoryOrder → Nat
  | .relaxed => 0
  | .consume => 1
  | .acquire => 2
  | .seqcst => 5

/-- enum AtomicStoreMemoryOrder (CAtomic.h lines 111-139): the orderings
valid for a pure store (relaxed = 0, consume = 1, release = 3,
seq_cst = 5). -/
inductive AtomicStoreMemoryOrder where
  | relaxed
  | consume
  | release
  | seqcst
deriving DecidableEq, Repr, Fintype

/-- The C cast (enum AtomicMemoryOrder)fail used in the compare-exchange
assertions: a load ordering reinterpreted as the general ordering with
the same numeric value. -/
def AtomicLoadMemoryOrder.toMemoryOrder : AtomicLoadMemoryOrder → AtomicMemoryOrder
  | .relaxed => .relaxed
  | .consume => .consume
  | .acquire => .acquire
  | .seqcst => .seqcst

/-- AtomicMemoryOrderStrongestLoadOrder (CAtomic.h lines 141-159),
restricted to the six declared enum cases (the default branch of the C
switch is modelled separately on raw numeric values). -/
def AtomicMemoryOrderStrongestLoadOrder : AtomicMemoryOrder → AtomicLoadMemoryOrder
  | .relaxed => .relaxed
  | .consume => .consume
  | .acquire => .acquire
  | .release => .relaxed
  | .acqrel => .acquire
  | .seqcst => .seqcst

/-- AtomicMemoryOrderStrongestLoadOrder on the raw unsigned-int carrier of
the C enum (a C enum parameter may hold any value of its underlying
type): the switch on the six numeric cases, with the default branch
returning AtomicLoadMemoryOrderSeqcst (numeric value 5). -/
def AtomicMemoryOrderStrongestLoadOrderRaw (self : Nat) : Nat :=
  if self = 0 then 0
  else if self = 1 then 1
  else if self = 2 then 2
  else if self = 3 then 0
  else if self = 4 then 2
  else if self = 5 then 5
  else 5

/-- The assertion guard of C<name>CompareExchangeStrong and
C<name>CompareExchangeWeak (CAtomic.h lines 204 and 209):
assert(((enum AtomicMemoryOrder)fail) <= succ), an unsigned comparison
of the raw enum values. -/
def casAssertHolds (succ : AtomicMemoryOrder) (fail : AtomicLoadMemoryOrder) : Bool :=
  decide (fail.toMemoryOrder.toNat ≤ succ.toNat)

/-- Modelled from the spec: the strict strength order on orderings given
in the design notes, Relaxed < Consume < Acquire < AcqRel < SeqCst and
Relaxed < Release < AcqRel < SeqCst, with Release not ordered against
Consume or Acquire except that AcqRel dominates both.
specStronger a b holds when a is strictly stronger than b. -/
def specStronger (a b : AtomicMemoryOrder) : Bool :=
  match a, b with
  | .seqcst, .seqcst => false
  | .seqcst, _ => true
  | .acqrel, .relaxed => true
  | .acqrel, .consume => true
  | .acqrel, .acquire => true
  | .acqrel, .release => true
  | .acquire, .relaxed => true
  | .acquire, .consume => true
  | .consume, .relaxed => true
  | .release, .relaxed => true
  | _, _ => false

/-- The numeric assertion guard coincides with the negation of the spec
strength order on every pair with a load-order failure ordering. -/
lemma casAssertHolds_eq_not_specStronger
    (succ : AtomicMemoryOrder) (fail : AtomicLoadMemoryOrder) :
    casAssertHolds succ fail = ! specStronger fail.toMemoryOrder succ := by
  cases succ <;> cases fail <;> decide

/-- Result of a compare-exchange: the returned _Bool, the cell value after
the call, and the value left in the expected out-parameter. -/
structure CasResult (α : Type) where
  success : Bool
  cell : α
  expected : α
deriving DecidableEq, Repr, Fintype

/-- C<name>Initialize (CAtomic.h lines 198-201): atomic_init stores the
value into the cell; the result is the cell state after the call. -/
def CInitialize {α : Type} (value : α) : α :=
  value

/-- C<name>Load (CAtomic.h lines 216-219): atomic_load_explicit returns
the cell value (single-threaded semantics; the ordering argument does
not affect the value read). -/
def CLoad {α : Type} (cell : α) (order : AtomicLoadMemoryOrder) : α :=
  cell

/-- C<name>Store (CAtomic.h lines 220-223): atomic_store_explicit writes
the value; the result is the cell state after the call. -/
def CStore {α : Type} (cell : α) (value : α) (order : AtomicStoreMemoryOrder) : α :=
  value

/-- C<name>Exchange (CAtomic.h lines 212-215): atomic_exchange_explicit
returns the prior value and stores the new one; the result is
(returned value, cell state after the call). -/
def CExchange {α : Type} (cell : α) (value : α) (order : AtomicMemoryOrder) : α × α :=
  (cell, value)

/-- C<name>CompareExchangeStrong (CAtomic.h lines 202-206): the assert on
the ordering pair, then atomic_compare_exchange_strong_explicit with its
C11 single-threaded semantics: on match, store desired and return true;
on mismatch, write the current value into expected and return false.
none models the aborted call when the debug assertion fires. -/
def CCompareExchangeStrong {α : Type} [DecidableEq α] (cell expected desired : α)
    (succ : AtomicMemoryOrder) (fail : AtomicLoadMemoryOrder) : Option (CasResult α) :=
  if casAssertHolds succ fail then
    if cell = expected then some ⟨true, desired, expected⟩
    else some ⟨false, cell, cell⟩
  else none

/-- C<name>CompareExchangeWeak (CAtomic.h lines 207-211): the same assert,
then atomic_compare_exchange_weak_explicit, which is permitted to fail
spuriously on a match; the nondeterministic spurious failure of the
underlying instruction is made explicit as the spurious argument. -/
def CCompareExchangeWeak {α : Type} [DecidableEq α] (spurious : Bool)
    (cell expected desired : α)
    (succ : AtomicMemoryOrder) (fail : AtomicLoadMemoryOrder) : Option (CasResult α) :=
  if casAssertHolds succ fail then
    if cell = expected ∧ spurious = false then some ⟨true, desired, expected⟩
    else some ⟨false, cell, cell⟩
  else none

/-- A single-threaded retry loop around CCompareExchangeWeak: one oracle
entry per attempt says whether the underlying instruction fails
spuriously on that attempt; on failure the written-back expected value
is used for the next attempt, as a caller retry loop does. -/
def casWeakLoop {α : Type} [DecidableEq α] (oracle : List Bool) (cell expected desired : α)
    (succ : AtomicMemoryOrder) (fail : AtomicLoadMemoryOrder) : Bool :=
  match oracle with
  | [] => false
  | s :: rest =>
    match CCompareExchangeWeak s cell expected desired succ fail with
    | none => false
    | some r =>
      if r.success then true
      else casWeakLoop rest r.cell r.expected desired succ fail

/-- C<name>FetchAdd for an integer type of bit width w (CAtomic.h lines
239-242): atomic_fetch_add_explicit returns the pre-operation value and
stores the sum with wraparound modulo 2 to the w; cells are modelled by
their bit pattern as a natural number below 2 to the w. The result is
(returned value, cell state after the call). -/
def CIntegerFetchAdd (w : Nat) (cell value : Nat) (order : AtomicMemoryOrder) : Nat × Nat :=
  (cell, (cell + value) % 2 ^ w)

/-- C<name>FetchSub for an integer type of bit width w (CAtomic.h lines
243-246): atomic_fetch_sub_explicit returns the pre-operation value and
stores the difference with wraparound modulo 2 to the w, encoded on bit
patterns as addition of the complement. -/
def CIntegerFetchSub (w : Nat) (cell value : Nat) (order : AtomicMemoryOrder) : Nat × Nat :=
  (cell, (cell + (2 ^ w - value % 2 ^ w)) % 2 ^ w)

/-- CAtomicUInt8FetchAdd: the _CATOMIC_INTEGER(AtomicUInt8, ...)
instantiation at line 255, width 8. -/
def CAtomicUInt8FetchAdd (cell value : Nat) (order : AtomicMemoryOrder) : Nat × Nat :=
  CIntegerFetchAdd 8 cell value order

/-- CAtomicUInt8FetchSub: the _CATOMIC_INTEGER(AtomicUInt8, ...)
instantiation at line 255, width 8. -/
def CAtomicUInt8FetchSub (cell value : Nat) (order : AtomicMemoryOrder) : Nat × Nat :=
  CIntegerFetchSub 8 cell value order

/-- A retry loop starting from a matching expected value succeeds as soon
as the spurious-failure oracle grants one non-spurious attempt. -/
lemma casWeakLoop_eventually {α : Type} [DecidableEq α] (oracle : List Bool)
    (cell desired : α) (succ : AtomicMemoryOrder) (fail : AtomicLoadMemoryOrder)
    (h : casAssertHolds succ fail = true) (hmem : false ∈ oracle) :
    casWeakLoop oracle cell cell desired succ fail = true := by
  induction hmem with
  | head rest =>
    simp [casWeakLoop, CCompareExchangeWeak, h]
  | tail b hmem ih =>
    cases b with
    | false =>
      simp [casWeakLoop, CCompareExchangeWeak, h]
    | true =>
      simpa [casWeakLoop, CCompareExchangeWeak, h] using ih

/-- Wraparound inverse on bit patterns: subtracting value after adding it
returns to the original cell value below the modulus. -/
lemma fetch_sub_wrap (N cell value : Nat) (hN : 0 < N) (h : cell < N) :
    ((cell + value) % N + (N - value % N)) % N = cell := by
  obtain ⟨p, hp⟩ := Nat.dvd_sub_mod (n := N) value
  have hv1 : value % N ≤ value := Nat.mod_le _ _
  have hv2 : value % N < N := Nat.mod_lt _ hN
  have key : (cell + value) % N + (N - value % N) ≡ cell [MOD N] := by
    calc (cell + value) % N + (N - value % N)
        ≡ cell + value + (N - value % N) [MOD N] :=
          Nat.ModEq.add_right _ (Nat.mod_modEq _ _)
      _ = cell + N * p + N := by rw [← hp]; omega
      _ = cell + N * (p + 1) := by ring
      _ ≡ cell [MOD N] :=
          show (cell + N * (p + 1)) % N = cell % N from
            Nat.add_mul_mod_self_left cell N (p + 1)
  calc ((cell + value) % N + (N - value % N)) % N = cell % N := key
    _ = cell := Nat.mod_eq_of_lt h

/-- C1: AtomicMemoryOrderStrongestLoadOrder satisfies the six-case mapping
table exactly (Relaxed to Relaxed, Consume to Consume, Acquire to Acquire,
Release to Relaxed rather than Acquire, AcqRel to Acquire, SeqCst to
SeqCst), and every result lies in the LoadOrder subset with numeric
values 0, 1, 2, 5. -/
theorem strongestLoadOrder_mapping_table :
    AtomicMemoryOrderStrongestLoadOrder .relaxed = .relaxed ∧
    AtomicMemoryOrderStrongestLoadOrder .consume = .consume ∧
    AtomicMemoryOrderStrongestLoadOrder .acquire = .acquire ∧
    AtomicMemoryOrderStrongestLoadOrder .release = .relaxed ∧
    AtomicMemoryOrderStrongestLoadOrder .acqrel = .acquire ∧
    AtomicMemoryOrderStrongestLoadOrder .seqcst = .seqcst ∧
    AtomicMemoryOrderStrongestLoadOrder .release ≠ .acquire ∧
    ∀ o : AtomicMemoryOrder,
      (AtomicMemoryOrderStrongestLoadOrder o).toNat ∈ ([0, 1, 2, 5] : List Nat) := by
  decide

/-- C2: for every scalar type and cell, both compare-exchange forms abort
on the debug assertion exactly when the failure ordering is strictly
stronger than the success ordering in the spec strength order; under the
precondition the assertion never fires and the call completes. -/
theorem compareExchange_assert_fires_iff {α : Type} [DecidableEq α]
    (cell expected desired : α) (succ : AtomicMemoryOrder)
    (fail : AtomicLoadMemoryOrder) (spurious : Bool) :
    (specStronger fail.toMemoryOrder succ = true →
      CCompareExchangeStrong cell expected desired succ fail = none ∧
      CCompareExchangeWeak spurious cell expected desired succ fail = none) ∧
    (specStronger fail.toMemoryOrder succ = false →
      (CCompareExchangeStrong cell expected desired succ fail).isSome = true ∧
      (CCompareExchangeWeak spurious cell expected desired succ fail).isSome = true) := by
  have ha := casAssertHolds_eq_not_specStronger succ fail
  constructor
  · intro hs
    rw [hs] at ha
    simp only [Bool.not_true] at ha
    simp [CCompareExchangeStrong, CCompareExchangeWeak, ha]
  · intro hs
    rw [hs] at ha
    simp only [Bool.not_false] at ha
    constructor
    · simp only [CCompareExchangeStrong, ha, if_true]
      split <;> simp
    · simp only [CCompareExchangeWeak, ha, if_true]
      split <;> simp

/-- C2 witness: with success order Relaxed and failure order Acquire, both
compare-exchange forms abort. -/
theorem compareExchange_assert_fires_iff_witness :
    CCompareExchangeStrong (α := Nat) 0 0 1 .relaxed .acquire = none ∧
    CCompareExchangeWeak (α := Nat) false 0 0 1 .relaxed .acquire = none :=
  (compareExchange_assert_fires_iff 0 0 1 .relaxed .acquire false).1 (by decide)

/-- C3: the numeric assertion guard (raw enum values compared with the C
less-or-equal) validates each pair exactly as the spec strength order
dictates; in particular the pair successOrder Release, failOrder Acquire
is accepted, matching Acquire not being stronger than Release. -/
theorem casAssert_matches_spec_strength_order :
    (∀ (fail : AtomicLoadMemoryOrder) (succ : AtomicMemoryOrder),
      casAssertHolds succ fail = ! specStronger fail.toMemoryOrder succ) ∧
    casAssertHolds .release .acquire = true ∧
    specStronger AtomicLoadMemoryOrder.acquire.toMemoryOrder .release = false := by
  decide

/-- C4: under the ordering precondition, CompareExchangeStrong on a
matching expected value stores desired and returns true; on a mismatch it
returns false, leaves the cell unmodified and writes the current value
into expected. It never spuriously fails. -/
theorem compareExchangeStrong_semantics {α : Type} [DecidableEq α]
    (cell expected desired : α) (succ : AtomicMemoryOrder)
    (fail : AtomicLoadMemoryOrder) (h : casAssertHolds succ fail = true) :
    (cell = expected →
      CCompareExchangeStrong cell expected desired succ fail =
        some ⟨true, desired, expected⟩) ∧
    (cell ≠ expected →
      CCompareExchangeStrong cell expected desired succ fail =
        some ⟨false, cell, cell⟩) := by
  constructor
  · intro he
    simp [CCompareExchangeStrong, h, he]
  · intro he
    simp [CCompareExchangeStrong, h, he]

/-- C4 witness: concrete success and failure calls on Nat cells. -/
theorem compareExchangeStrong_semantics_witness :
    CCompareExchangeStrong (α := Nat) 5 5 7 .seqcst .acquire = some ⟨true, 7, 5⟩ ∧
    CCompareExchangeStrong (α := Nat) 6 5 7 .seqcst .acquire = some ⟨false, 6, 6⟩ :=
  ⟨(compareExchangeStrong_semantics 5 5 7 .seqcst .acquire (by decide)).1 rfl,
   (compareExchangeStrong_semantics 6 5 7 .seqcst .acquire (by decide)).2 (by decide)⟩

/-- C5: CompareExchangeWeak agrees with the strong form on non-spurious
attempts, never reports success when the cell does not match expected,
and a single-threaded retry loop on a matching value succeeds once the
oracle grants a non-spurious attempt. -/
theorem compareExchangeWeak_semantics {α : Type} [DecidableEq α]
    (cell expected desired : α) (succ : AtomicMemoryOrder)
    (fail : AtomicLoadMemoryOrder) (oracle : List Bool)
    (h : casAssertHolds succ fail = true) :
    (CCompareExchangeWeak false cell expected desired succ fail =
      CCompareExchangeStrong cell expected desired succ fail) ∧
    (∀ (spurious : Bool) (r : CasResult α),
      CCompareExchangeWeak spurious cell expected desired succ fail = some r →
      r.success = true → cell = expected) ∧
    (cell = expected → false ∈ oracle →
      casWeakLoop oracle cell expected desired succ fail = true) := by
  refine ⟨?_, ?_, ?_⟩
  · simp [CCompareExchangeWeak, CCompareExchangeStrong]
  · intro spurious r hr hs
    by_cases hc : cell = expected
    · exact hc
    · exfalso
      have hcc : ¬ (cell = expected ∧ spurious = false) := fun hx => hc hx.1
      simp only [CCompareExchangeWeak, h, if_true, hcc, if_false,
        Option.some.injEq] at hr
      rw [← hr] at hs
      simp at hs
  · intro he hmem
    subst he
    exact casWeakLoop_eventually oracle cell desired succ fail h hmem

/-- C5 witness: a Nat cell matching its expected value, with one spurious
failure followed by a clean attempt, succeeds in the retry loop. -/
theorem compareExchangeWeak_semantics_witness :
    casWeakLoop [true, false] (5 : Nat) 5 9 .acqrel .acquire = true :=
  (compareExchangeWeak_semantics 5 5 9 .acqrel .acquire [true, false]
    (by decide)).2.2 rfl (by decide)

/-- C6: FetchAdd and FetchSub return the pre-operation value and wrap
modulo 2 to the width: FetchSub undoes FetchAdd on any in-range cell, and
on an 8-bit unsigned cell holding 250, FetchAdd of 10 returns 250 and
leaves the cell at 4. -/
theorem fetch_arith_wraparound (w cell value : Nat) (order : AtomicMemoryOrder)
    (h : cell < 2 ^ w) :
    (CIntegerFetchAdd w cell value order).1 = cell ∧
    (CIntegerFetchSub w cell value order).1 = cell ∧
    (CIntegerFetchAdd w cell value order).2 = (cell + value) % 2 ^ w ∧
    (CIntegerFetchSub w (CIntegerFetchAdd w cell value order).2 value order).2 = cell ∧
    (∀ o : AtomicMemoryOrder, CAtomicUInt8FetchAdd 250 10 o = (250, 4)) ∧
    (∀ o : AtomicMemoryOrder, CAtomicUInt8FetchSub 4 10 o = (4, 250)) := by
  refine ⟨rfl, rfl, rfl, ?_, by decide, by decide⟩
  have hN : 0 < 2 ^ w := Nat.pos_pow_of_pos _ (by norm_num)
  exact fetch_sub_wrap (2 ^ w) cell value hN h

/-- C6 witness: the 8-bit instantiation at cell 250, addend 10. -/
theorem fetch_arith_wraparound_witness :
    CAtomicUInt8FetchAdd 250 10 .seqcst = (250, 4) ∧ 250 < 2 ^ 8 :=
  ⟨(fetch_arith_wraparound 8 250 10 .seqcst (by decide)).2.2.2.2.1 .seqcst,
   by decide⟩

/-- C7: after Initialize with v1 and before any other operation, a relaxed
Load returns v1, for every scalar type. -/
theorem initialize_then_load {α : Type} (v1 : α) :
    CLoad (CInitialize v1) .relaxed = v1 :=
  rfl

/-- C8: Exchange returns the value most recently stored in the cell, and a
relaxed Load afterwards returns the exchanged-in value, for every scalar
type and every ordering. -/
theorem exchange_semantics {α : Type} (cell v1 v2 : α)
    (so : AtomicStoreMemoryOrder) (order : AtomicMemoryOrder) :
    (CExchange (CStore cell v1 so) v2 order).1 = v1 ∧
    (CExchange cell v2 order).1 = cell ∧
    CLoad (CExchange cell v2 order).2 .relaxed = v2 :=
  ⟨rfl, rfl, rfl⟩

/-- C9: on the raw unsigned carrier, any input outside the six recognized
numeric cases resolves to SeqCst (numeric value 5), the strongest
ordering, rather than failing or returning anything weaker. -/
theorem strongestLoadOrderRaw_default (n : Nat)
    (h : n ≠ 0 ∧ n ≠ 1 ∧ n ≠ 2 ∧ n ≠ 3 ∧ n ≠ 4 ∧ n ≠ 5) :
    AtomicMemoryOrderStrongestLoadOrderRaw n = AtomicLoadMemoryOrder.seqcst.toNat := by
  obtain ⟨h0, h1, h2, h3, h4, h5⟩ := h
  simp [AtomicMemoryOrderStrongestLoadOrderRaw, h0, h1, h2, h3, h4, h5,
    AtomicLoadMemoryOrder.toNat]

/-- C9 witness: the unrecognized input 42 resolves to SeqCst. -/
theorem strongestLoadOrderRaw_default_witness :
    AtomicMemoryOrderStrongestLoadOrderRaw 42 = AtomicLoadMemoryOrder.seqcst.toNat :=
  strongestLoadOrderRaw_default 42 (by decide)

/-- C10: reinterpreting an output of StrongestLoadOrder as a general
ordering (the numeric values coincide) and applying the function again is
the identity on that output. -/
theorem strongestLoadOrder_idempotent :
    (∀ l : AtomicLoadMemoryOrder, l.toMemoryOrder.toNat = l.toNat) ∧
    ∀ o : AtomicMemoryOrder,
      AtomicMemoryOrderStrongestLoadOrder
          (AtomicMemoryOrderStrongestLoadOrder o).toMemoryOrder =
        AtomicMemoryOrderStrongestLoadOrder o := by
  decide

end CAtomic
